import Mathlib

/-!
Verification of the pumas example programs.

This file gives a shallow embedding of the example drivers shipped with the
pumas transport library: the layered rock/air geometry example
(`examples/geometry.c`) and the nested-box geometry example, and proves the
specified properties of their callbacks.  C `double` values are modelled as
rationals where only field and order operations occur, and as real numbers
where the code calls `exp`, `log`, `sqrt` or `pow`.
-/

namespace Pumas

/-- Altitude at which the primary flux is sampled (`PRIMARY_ALTITUDE`,
1E+03 in `geometry.c`). -/
def PRIMARY_ALTITUDE : ℚ := 1000

/-- The C constant `FLT_EPSILON`, exactly 2^-23. -/
def FLT_EPSILON : ℚ := 1 / 8388608

/-- The two media registered in `geometry.c`: `media[0]` is Standard Rock and
`media[1]` is Air. -/
inductive Medium2 | rock | air
deriving DecidableEq

/-- Embedding of the medium resolver `medium2` of `geometry.c`.  The C
function reads only `state->position[2]` (here `z`), `state->direction[2]`
(here `uz`) and the global `rock_thickness`; it writes the resolved medium
through `medium_ptr` and returns the proposed step.  `step` is initialised
to 1E+03 and overwritten in the branches exactly as in the source. -/
def medium2 (rock_thickness z uz : ℚ) : Option Medium2 × ℚ :=
  if z < 0 then (none, -1)
  else if z < rock_thickness then
    (some Medium2.rock,
      if FLT_EPSILON < uz then z / uz
      else if uz < -FLT_EPSILON then (z - rock_thickness) / uz
      else 1000)
  else if z < PRIMARY_ALTITUDE then
    (some Medium2.air,
      if FLT_EPSILON < uz then (z - rock_thickness) / uz
      else if uz < -FLT_EPSILON then (z - PRIMARY_ALTITUDE) / uz
      else 1000)
  else (none, -1)

end Pumas

namespace Pumas

/-- C1: `medium2` reports no medium iff `z < 0` or `z ≥ PRIMARY_ALTITUDE`,
and then the returned step is `-1`; otherwise it reports rock when
`z < rock_thickness` and air when `rock_thickness ≤ z < PRIMARY_ALTITUDE`.
`main` guarantees `0 ≤ rock_thickness ≤ PRIMARY_ALTITUDE`. -/
theorem medium2_classification (rt z uz : ℚ) (hrt0 : 0 ≤ rt)
    (hrt1 : rt ≤ PRIMARY_ALTITUDE) :
    ((medium2 rt z uz).1 = none ↔ (z < 0 ∨ PRIMARY_ALTITUDE ≤ z)) ∧
    ((z < 0 ∨ PRIMARY_ALTITUDE ≤ z) → (medium2 rt z uz).2 = -1) ∧
    (0 ≤ z → z < rt → (medium2 rt z uz).1 = some Medium2.rock) ∧
    (rt ≤ z → z < PRIMARY_ALTITUDE → (medium2 rt z uz).1 = some Medium2.air)
    := by
  unfold medium2 PRIMARY_ALTITUDE at *
  refine ⟨?_, ?_, ?_, ?_⟩
  · split_ifs with h1 h2 h3 <;> simp <;>
      first
        | exact Or.inl h1
        | (constructor <;> linarith)
        | exact Or.inr (by linarith)
  · intro h
    split_ifs with g1 g2 g3 <;>
      first
        | rfl
        | (rcases h with h | h <;> linarith)
  · intro hz hlt
    split_ifs with g1 g2 g3 <;> first | rfl | linarith
  · intro hge hlt
    split_ifs with g1 g2 g3 g4 g5 g6 <;> first | rfl | linarith

/-- Witness for C1 at `rock_thickness = 500`, `z = 700`, `uz = 1`. -/
theorem medium2_classification_witness :
    (0 ≤ (500 : ℚ) ∧ (500 : ℚ) ≤ PRIMARY_ALTITUDE) ∧
    (((medium2 500 700 1).1 = none ↔
        ((700 : ℚ) < 0 ∨ PRIMARY_ALTITUDE ≤ 700)) ∧
      (((700 : ℚ) < 0 ∨ PRIMARY_ALTITUDE ≤ 700) →
        (medium2 500 700 1).2 = -1) ∧
      (0 ≤ (700 : ℚ) → (700 : ℚ) < 500 →
        (medium2 500 700 1).1 = some Medium2.rock) ∧
      ((500 : ℚ) ≤ 700 → (700 : ℚ) < PRIMARY_ALTITUDE →
        (medium2 500 700 1).1 = some Medium2.air)) :=
  ⟨⟨by norm_num, by norm_num [PRIMARY_ALTITUDE]⟩,
    medium2_classification 500 700 1 (by norm_num)
      (by norm_num [PRIMARY_ALTITUDE])⟩

/-- C2 counterexample: with `rock_thickness = 0`, at `z = 0` (inside the
simulated volume since `0 ≤ z < PRIMARY_ALTITUDE`) and `uz = 1` (so
`|uz| > FLT_EPSILON`), `medium2` resolves the air medium and proposes the
step `(z - rock_thickness) / uz = 0`, which is not strictly positive. -/
theorem medium2_step_zero_at_surface :
    (0 ≤ (0 : ℚ) ∧ (0 : ℚ) < PRIMARY_ALTITUDE ∧ FLT_EPSILON < |(1 : ℚ)|) ∧
    (medium2 0 0 1).1 = some Medium2.air ∧
    (medium2 0 0 1).2 = 0 ∧ ¬ 0 < (medium2 0 0 1).2 := by
  refine ⟨⟨le_refl 0, ?_, ?_⟩, ?_, ?_, ?_⟩ <;>
    norm_num [medium2, PRIMARY_ALTITUDE, FLT_EPSILON]

/-- C2 (amended): for every state inside the simulated volume the proposed
step is non-negative, and it equals the exact backward path length to the
adjacent layer boundary - `z / uz` or `(z - rock_thickness) / uz` in rock,
`(z - rock_thickness) / uz` or `(z - PRIMARY_ALTITUDE) / uz` in air -
when `|uz| > FLT_EPSILON`, and the fallback `1000` when
`|uz| ≤ FLT_EPSILON`.  (It is zero exactly on the departing boundary, so
the original strict positivity fails there.) -/
theorem medium2_step_inside (rt z uz : ℚ) (h0 : 0 ≤ z)
    (h1 : z < PRIMARY_ALTITUDE) :
    0 ≤ (medium2 rt z uz).2 ∧
    (z < rt → FLT_EPSILON < uz → (medium2 rt z uz).2 = z / uz) ∧
    (z < rt → uz < -FLT_EPSILON → (medium2 rt z uz).2 = (z - rt) / uz) ∧
    (rt ≤ z → FLT_EPSILON < uz → (medium2 rt z uz).2 = (z - rt) / uz) ∧
    (rt ≤ z → uz < -FLT_EPSILON →
      (medium2 rt z uz).2 = (z - PRIMARY_ALTITUDE) / uz) ∧
    (|uz| ≤ FLT_EPSILON → (medium2 rt z uz).2 = 1000) := by
  have hfe : (0 : ℚ) < FLT_EPSILON := by norm_num [FLT_EPSILON]
  unfold medium2 PRIMARY_ALTITUDE at *
  refine ⟨?_, ?_, ?_, ?_, ?_, ?_⟩
  · split_ifs with g1 g2 g3 g4 g5 g6
    · linarith
    · exact div_nonneg h0 (le_of_lt (hfe.trans g3))
    · exact div_nonneg_iff.mpr
        (Or.inr ⟨sub_nonpos.mpr (le_of_lt g2),
          le_of_lt (g4.trans (neg_lt_zero.mpr hfe))⟩)
    · norm_num
    · exact div_nonneg (sub_nonneg.mpr (le_of_not_lt g2))
        (le_of_lt (hfe.trans g5))
    · exact div_nonneg_iff.mpr
        (Or.inr ⟨sub_nonpos.mpr (le_of_lt h1),
          le_of_lt (g6.trans (neg_lt_zero.mpr hfe))⟩)
    · norm_num
  · intro hz hu
    split_ifs with g1 <;> first | rfl | linarith
  · intro hz hu
    split_ifs with g1 g2 <;> first | rfl | linarith
  · intro hz hu
    split_ifs with g1 g2 <;> first | rfl | linarith
  · intro hz hu
    split_ifs with g1 g2 g3 g4 <;> first | rfl | linarith
  · intro habs
    have hb := abs_le.mp habs
    split_ifs with g1 g2 g3 g4 g5 g6 <;>
      first | rfl | linarith [hb.1, hb.2]

/-- Witness for the amended C2 at `rock_thickness = 200`, `z = 100`,
`uz = 1`. -/
theorem medium2_step_inside_witness :
    (0 ≤ (100 : ℚ) ∧ (100 : ℚ) < PRIMARY_ALTITUDE) ∧
    0 ≤ (medium2 200 100 1).2 :=
  ⟨⟨by norm_num, by norm_num [PRIMARY_ALTITUDE]⟩,
    (medium2_step_inside 200 100 1 (by norm_num)
      (by norm_num [PRIMARY_ALTITUDE])).1⟩

/-- Embedding of the random callback `uniform01` (identical in
`geometry.c` and in the box example): `rand() / (double)RAND_MAX`, with the
value returned by `rand()` modelled as a natural number `r ≤ RAND_MAX`. -/
def uniform01 (r RAND_MAX : ℕ) : ℚ := (r : ℚ) / (RAND_MAX : ℚ)

/-- C3 counterexample: when `rand()` returns `RAND_MAX` itself (here the
common value 2147483647), `uniform01` returns exactly 1, which is not
strictly less than 1. -/
theorem uniform01_not_lt_one :
    uniform01 2147483647 2147483647 = 1 ∧
    ¬ uniform01 2147483647 2147483647 < 1 := by
  constructor <;> norm_num [uniform01]

/-- C3 (amended): for every value of `rand()` in `[0, RAND_MAX]` the result
of `uniform01` lies in the closed interval `[0, 1]`, attaining 1 exactly
when `rand()` returns `RAND_MAX` (the code comment itself advertises a
uniform distribution over `[0, 1]`). -/
theorem uniform01_range (r m : ℕ) (hm : 0 < m) (hr : r ≤ m) :
    0 ≤ uniform01 r m ∧ uniform01 r m ≤ 1 ∧
      (uniform01 r m = 1 ↔ r = m) := by
  have hm0 : (0 : ℚ) < (m : ℚ) := by exact_mod_cast hm
  unfold uniform01
  refine ⟨div_nonneg (by positivity) (le_of_lt hm0), ?_, ?_⟩
  · rw [div_le_one hm0]
    exact_mod_cast hr
  · rw [div_eq_one_iff_eq (ne_of_gt hm0)]
    exact Nat.cast_inj

/-- Witness for the amended C3 at `rand() = 1`, `RAND_MAX = 2`. -/
theorem uniform01_range_witness :
    (0 < 2 ∧ 1 ≤ 2) ∧ 0 ≤ uniform01 1 2 ∧ uniform01 1 2 ≤ 1 ∧
      (uniform01 1 2 = 1 ↔ 1 = 2) :=
  ⟨⟨by decide, by decide⟩, uniform01_range 1 2 (by decide) (by decide)⟩

/-- The two media of the box example: an inner Standard Rock cube nested
inside an Air cube. -/
inductive BoxMedium | rock | air
deriving DecidableEq

/-- Embedding of the medium callback `medium` of the box example: a rock
cube of half-width 1 nested in an air cube of half-width 4, with the
constant step proposal 1 (the example lets PUMAS locate the boundary
numerically). -/
def boxMedium (x y z : ℚ) : Option BoxMedium × ℚ :=
  (if 4 < |x| ∨ 4 < |y| ∨ 4 < |z| then none
   else if 1 < |x| ∨ 1 < |y| ∨ 1 < |z| then some BoxMedium.air
   else some BoxMedium.rock, 1)

/-- C8: the box resolver classifies the position by its max-norm - outside
iff the norm exceeds 4, rock iff it is at most 1, air in between - and
proposes the step 1 unconditionally, even together with the outside
signal. -/
theorem boxMedium_classification (x y z : ℚ) :
    ((boxMedium x y z).1 = none ↔ 4 < max (max |x| |y|) |z|) ∧
    ((boxMedium x y z).1 = some BoxMedium.rock ↔
      max (max |x| |y|) |z| ≤ 1) ∧
    ((boxMedium x y z).1 = some BoxMedium.air ↔
      (1 < max (max |x| |y|) |z| ∧ max (max |x| |y|) |z| ≤ 4)) ∧
    (boxMedium x y z).2 = 1 := by
  have h4 : 4 < max (max |x| |y|) |z| ↔ (4 < |x| ∨ 4 < |y| ∨ 4 < |z|) := by
    simp [lt_max_iff, or_assoc]
  have h1 : 1 < max (max |x| |y|) |z| ↔ (1 < |x| ∨ 1 < |y| ∨ 1 < |z|) := by
    simp [lt_max_iff, or_assoc]
  have hle1 : max (max |x| |y|) |z| ≤ 1 ↔
      (|x| ≤ 1 ∧ |y| ≤ 1 ∧ |z| ≤ 1) := by
    simp [max_le_iff, and_assoc]
  have hle4 : max (max |x| |y|) |z| ≤ 4 ↔
      (|x| ≤ 4 ∧ |y| ≤ 4 ∧ |z| ≤ 4) := by
    simp [max_le_iff, and_assoc]
  rw [h4, h1, hle1, hle4]
  unfold boxMedium
  refine ⟨?_, ?_, ?_, rfl⟩ <;> split_ifs with hA hB
  · exact iff_of_true rfl hA
  · refine iff_of_false (by simp) hA
  · refine iff_of_false (by simp) hA
  · refine iff_of_false (by simp) ?_
    rintro ⟨c1, c2, c3⟩
    rcases hA with h | h | h <;> linarith
  · refine iff_of_false (by simp) ?_
    rintro ⟨c1, c2, c3⟩
    rcases hB with h | h | h <;> linarith
  · refine iff_of_true rfl ?_
    push_neg at hB
    exact hB
  · refine iff_of_false (by simp) ?_
    rintro ⟨-, c1, c2, c3⟩
    rcases hA with h | h | h <;> linarith
  · refine iff_of_true rfl ?_
    push_neg at hA
    exact ⟨hB, hA⟩
  · refine iff_of_false (by simp) ?_
    push_neg at hB
    rintro ⟨c, -⟩
    rcases c with h | h | h <;> linarith [hB.1, hB.2.1, hB.2.2]

/-- Embedding of `struct pumas_state`: the fields the example programs use,
with C doubles modelled as real numbers. -/
structure pumas_state where
  charge : ℝ
  kinetic : ℝ
  distance : ℝ
  weight : ℝ
  position : ℝ × ℝ × ℝ
  direction : ℝ × ℝ × ℝ

/-- Embedding of `struct pumas_locals`: the per-step material density and
magnetic field filled in by the locals callbacks. -/
structure pumas_locals where
  density : ℝ
  magnet : ℝ × ℝ × ℝ

/-- Embedding of `locals_rock` from `geometry.c`: sets the density of
Standard Rock on the passed-in locals record and returns the step proposal
0, the signal for a uniform medium. -/
def locals_rock (state : pumas_state) (locals : pumas_locals) :
    pumas_locals × ℝ :=
  ({ locals with density := 2.65e3 }, 0)

/-- Embedding of `locals_air` from `geometry.c`: overwrites the magnetic
field with the constant geomagnetic field, sets the exponential-profile
density from the altitude `state.position[2]`, and proposes 1 percent of
the projected attenuation length as the step. -/
noncomputable def locals_air (state : pumas_state) (locals : pumas_locals) :
    pumas_locals × ℝ :=
  let locals1 := { locals with magnet := (0, 2e-5, -4e-5) }
  let rho0 : ℝ := 1.205
  let h : ℝ := 12e3
  let locals2 :=
    { locals1 with density := rho0 * Real.exp (-state.position.2.2 / h) }
  let eps : ℝ := 5e-2
  let uz : ℝ := |state.direction.2.2|
  (locals2, 1e-2 * h / (if uz ≤ eps then eps else uz))

/-- C5: the locals callbacks report non-negative densities - `locals_rock`
sets exactly 2.65E+03 and `locals_air` sets `1.205 * exp(-z / 12000)`,
which is strictly positive at every altitude `z`. -/
theorem locals_density_ok (s : pumas_state) (l : pumas_locals) :
    (locals_rock s l).1.density = 2.65e3 ∧
    (locals_air s l).1.density =
      1.205 * Real.exp (-s.position.2.2 / 12e3) ∧
    0 < (locals_air s l).1.density := by
  refine ⟨rfl, rfl, ?_⟩
  show (0 : ℝ) < 1.205 * Real.exp (-s.position.2.2 / 12e3)
  positivity

/-- C9: `locals_rock` writes only the density field, leaving the magnetic
field exactly as it was before the call, whereas `locals_air` overwrites
the whole record - all three magnetic-field components and the density -
independently of the locals passed in. -/
theorem locals_frame_effects (s : pumas_state) (l l2 : pumas_locals) :
    (locals_rock s l).1.magnet = l.magnet ∧
    (locals_rock s l).1.density = 2.65e3 ∧
    (locals_air s l).1.magnet = (0, 2e-5, -4e-5) ∧
    (locals_air s l).1 = (locals_air s l2).1 :=
  ⟨rfl, rfl, rfl, rfl⟩

/-- C6: for a unit-length direction (so `|uz| ≤ 1`) the step proposed by
`locals_air` equals `1E-02 * 12000 / max(0.05, |uz|)`, hence lies in the
closed interval `[120, 2400]` and is strictly positive, while
`locals_rock` returns 0, the no-local-limit signal of a uniform medium. -/
theorem locals_air_step_bounds (s : pumas_state) (l : pumas_locals)
    (h : |s.direction.2.2| ≤ 1) :
    (locals_air s l).2 = 1e-2 * 12e3 / max 5e-2 |s.direction.2.2| ∧
    120 ≤ (locals_air s l).2 ∧ (locals_air s l).2 ≤ 2400 ∧
    0 < (locals_air s l).2 ∧ (locals_rock s l).2 = 0 := by
  have h0 : (0 : ℝ) ≤ |s.direction.2.2| := abs_nonneg _
  have heq : (locals_air s l).2 =
      1e-2 * 12e3 / max 5e-2 |s.direction.2.2| := by
    show (1e-2 * 12e3 /
        (if |s.direction.2.2| ≤ 5e-2 then 5e-2 else |s.direction.2.2|) : ℝ)
      = _
    rcases le_or_lt |s.direction.2.2| 5e-2 with hc | hc
    · rw [if_pos hc, max_eq_left hc]
    · rw [if_neg (not_le.mpr hc), max_eq_right (le_of_lt hc)]
  have hm5 : (5e-2 : ℝ) ≤ max 5e-2 |s.direction.2.2| := le_max_left _ _
  have hm1 : max 5e-2 |s.direction.2.2| ≤ 1 := max_le (by norm_num) h
  have hmpos : (0 : ℝ) < max 5e-2 |s.direction.2.2| :=
    lt_of_lt_of_le (by norm_num) hm5
  refine ⟨heq, ?_, ?_, ?_, rfl⟩
  · rw [heq, le_div_iff₀ hmpos]
    nlinarith
  · rw [heq, div_le_iff₀ hmpos]
    nlinarith
  · rw [heq]
    exact div_pos (by norm_num) hmpos

/-- Witness for C6 with the vertical unit direction. -/
theorem locals_air_step_bounds_witness :
    |((⟨-1, 1, 0, 1, (0, 0, 0), (0, 0, 1)⟩ : pumas_state)).direction.2.2| ≤ 1
    ∧ 120 ≤ (locals_air ⟨-1, 1, 0, 1, (0, 0, 0), (0, 0, 1)⟩
        ⟨0, (0, 0, 0)⟩).2 :=
  ⟨by norm_num,
    (locals_air_step_bounds ⟨-1, 1, 0, 1, (0, 0, 0), (0, 0, 1)⟩
      ⟨0, (0, 0, 0)⟩ (by norm_num)).2.1⟩

/-- The backward final-state draw of `main` in `geometry.c`: the
log-uniform range `rk = log(kinetic_max / kinetic_min)`. -/
noncomputable def rk (kinetic_min kinetic_max : ℝ) : ℝ :=
  Real.log (kinetic_max / kinetic_min)

/-- The randomised final kinetic energy of `main`:
`kf = kinetic_min * exp(rk * u)` with `u` the uniform variate. -/
noncomputable def kf (kinetic_min kinetic_max u : ℝ) : ℝ :=
  kinetic_min * Real.exp (rk kinetic_min kinetic_max * u)

/-- The initial statistical weight of `main`: `wf = kf * rk`. -/
noncomputable def wf (kinetic_min kinetic_max u : ℝ) : ℝ :=
  kf kinetic_min kinetic_max u * rk kinetic_min kinetic_max

/-- The generating bias density named in the comment of `main`:
`PDF(k) = 1 / (k * rk)` on `[kinetic_min, kinetic_max]`. -/
noncomputable def PDF (kinetic_min kinetic_max k : ℝ) : ℝ :=
  1 / (k * rk kinetic_min kinetic_max)

/-- C4: for `0 < kinetic_min < kinetic_max` and a uniform variate
`u ∈ [0, 1)`, the draw satisfies `kinetic_min ≤ kf < kinetic_max`, and the
initial weight `wf = kf * rk` is strictly positive and equals the
reciprocal `1 / PDF(kf)` of the log-uniform sampling density. -/
theorem backward_draw_ok (kmin kmax u : ℝ) (hk0 : 0 < kmin)
    (hk : kmin < kmax) (hu0 : 0 ≤ u) (hu1 : u < 1) :
    kmin ≤ kf kmin kmax u ∧ kf kmin kmax u < kmax ∧
    0 < wf kmin kmax u ∧
    wf kmin kmax u = 1 / PDF kmin kmax (kf kmin kmax u) := by
  have hratio : 1 < kmax / kmin := (one_lt_div hk0).mpr hk
  have hrk : 0 < rk kmin kmax := Real.log_pos hratio
  have hexp1 : 1 ≤ Real.exp (rk kmin kmax * u) :=
    Real.one_le_exp (mul_nonneg (le_of_lt hrk) hu0)
  have hlt : rk kmin kmax * u < rk kmin kmax := by
    have h2 := mul_lt_mul_of_pos_left hu1 hrk
    simpa using h2
  have hexp2 : Real.exp (rk kmin kmax * u) < kmax / kmin := by
    have h3 := Real.exp_lt_exp.mpr hlt
    rwa [rk, Real.exp_log (by positivity)] at h3
  refine ⟨?_, ?_, ?_, ?_⟩
  · exact le_mul_of_one_le_right (le_of_lt hk0) hexp1
  · have h4 := mul_lt_mul_of_pos_left hexp2 hk0
    have h5 : kmin * (kmax / kmin) = kmax := by field_simp
    rw [h5] at h4
    exact h4
  · exact mul_pos (mul_pos hk0 (Real.exp_pos _)) hrk
  · unfold wf PDF
    rw [one_div_one_div]

/-- Witness for C4 at `kinetic_min = 1`, `kinetic_max = 2`, `u = 0`. -/
theorem backward_draw_ok_witness :
    ((0 : ℝ) < 1 ∧ (1 : ℝ) < 2 ∧ (0 : ℝ) ≤ 0 ∧ (0 : ℝ) < 1) ∧
    (1 : ℝ) ≤ kf 1 2 0 ∧ kf 1 2 0 < 2 ∧ 0 < wf 1 2 0 ∧
      wf 1 2 0 = 1 / PDF 1 2 (kf 1 2 0) :=
  ⟨⟨by norm_num, by norm_num, le_refl 0, by norm_num⟩,
    backward_draw_ok 1 2 0 (by norm_num) (by norm_num) (le_refl 0)
      (by norm_num)⟩

/-- The intermediate `cs2` of `cos_theta_star` in `geometry.c`, with the
C `pow` calls modelled by the real power. -/
noncomputable def cs2 (cos_theta : ℝ) : ℝ :=
  (cos_theta * cos_theta + 0.102573 * 0.102573 +
      (-0.068287) * cos_theta ^ (0.958633 : ℝ) +
      0.0407253 * cos_theta ^ (0.817285 : ℝ)) /
    (1 + 0.102573 * 0.102573 + (-0.068287) + 0.0407253)

/-- Embedding of `cos_theta_star` from `geometry.c`, Volkova's
parameterization of `cos(theta*)`: the square root is only taken in the
guarded `cs2 > 0` branch, 0 being returned otherwise. -/
noncomputable def cos_theta_star (cos_theta : ℝ) : ℝ :=
  if 0 < cs2 cos_theta then Real.sqrt (cs2 cos_theta) else 0

/-- C10: `cos_theta_star` is total on `[0, 1]` and non-negative: the
normalizing denominator of `cs2` is strictly positive (so `cs2` is well
defined) and the square root is applied only when `cs2 > 0`, with 0
returned otherwise, so no negative argument ever reaches it. -/
theorem cos_theta_star_nonneg (c : ℝ) (h0 : 0 ≤ c) (h1 : c ≤ 1) :
    (0 : ℝ) < 1 + 0.102573 * 0.102573 + (-0.068287) + 0.0407253 ∧
    0 ≤ cos_theta_star c := by
  refine ⟨by norm_num, ?_⟩
  unfold cos_theta_star
  split_ifs with hc
  · exact Real.sqrt_nonneg _
  · exact le_refl 0

/-- Witness for C10 at `cos_theta = 1`. -/
theorem cos_theta_star_nonneg_witness :
    ((0 : ℝ) ≤ 1 ∧ (1 : ℝ) ≤ 1) ∧
    ((0 : ℝ) < 1 + 0.102573 * 0.102573 + (-0.068287) + 0.0407253 ∧
      0 ≤ cos_theta_star 1) :=
  ⟨⟨by norm_num, le_refl 1⟩,
    cos_theta_star_nonneg 1 (by norm_num) (le_refl 1)⟩

/-- Modelled from the spec: the body of `pumas_transport` is not among the
source files (only its declaration in the API header and its call sites
are), so the stepper is modelled from spec section 4.5 - a transport call
iterates elementary steps, each first resolving the medium through the
caller's resolver and terminating on the outside signal `none`, then
applying the physics update of the selected scheme, until a terminal
event or the step budget is reached. -/
def pumas_transport (resolve : pumas_state → Option Medium2)
    (phys : pumas_state → pumas_state) : ℕ → pumas_state → pumas_state
  | 0, s => s
  | n + 1, s =>
    match resolve s with
    | none => s
    | some _ => pumas_transport resolve phys n (phys s)

/-- Modelled from the spec: a valid state has a unit-length direction and
non-negative kinetic energy (spec sections 3 and 4.5). -/
def valid_state (s : pumas_state) : Prop :=
  s.direction.1 ^ 2 + s.direction.2.1 ^ 2 + s.direction.2.2 ^ 2 = 1 ∧
  0 ≤ s.kinetic

/-- C7: when every elementary physics step preserves the per-step state
invariants - as spec section 3 requires of each scheme - any successful
transport call leaves the direction unit-length and the kinetic energy
non-negative, by induction along the step loop of section 4.5. -/
theorem pumas_transport_preserves_valid
    (resolve : pumas_state → Option Medium2)
    (phys : pumas_state → pumas_state)
    (hphys : ∀ s, valid_state s → valid_state (phys s))
    (fuel : ℕ) (s : pumas_state) (hs : valid_state s) :
    valid_state (pumas_transport resolve phys fuel s) := by
  induction fuel generalizing s with
  | zero => exact hs
  | succ n ih =>
    simp only [pumas_transport]
    cases hres : resolve s with
    | none => exact hs
    | some m => exact ih (phys s) (hphys s hs)

/-- Witness for C7: one transport step with the identity physics update on
a downward vertical muon state. -/
theorem pumas_transport_preserves_valid_witness :
    valid_state ⟨-1, 1, 0, 1, (0, 0, 0), (0, 0, -1)⟩ ∧
    valid_state (pumas_transport (fun _ => some Medium2.air) id 1
      ⟨-1, 1, 0, 1, (0, 0, 0), (0, 0, -1)⟩) :=
  ⟨by constructor <;> norm_num,
    pumas_transport_preserves_valid (fun _ => some Medium2.air) id
      (fun _ hv => hv) 1 ⟨-1, 1, 0, 1, (0, 0, 0), (0, 0, -1)⟩
      (by constructor <;> norm_num)⟩

end Pumas
